import Mathlib

/-!
# Google storage adapter of `stow`: embedding and checked properties

Shallow embedding of `src/google/config.go`, `src/google/location.go` and
`src/google/container.go`.

* Go strings are `String`; `strings.SplitN` works on the character list.
* A Go map is an association list given in the order in which `range` visits
  its entries; a statement over all association lists with distinct keys is a
  statement over all maps and all iteration orders.
* The storage client is an oracle: every call is answered as a function of the
  calls made so far (the history), so a stateful backend is covered.  Every
  operation returns its result together with the extended history.
* The pager of `google.golang.org/api/iterator` checks its page size and the
  type of the value handed to `NextPage` before it asks the backend for
  anything; `NextPage` below keeps those checks.
* A Go `(value, error)` result is `Outcome.ok` / `Outcome.err`; a run-time
  panic is `Outcome.panic`.
-/

namespace Stow.Google

/-! ## Errors and results -/

/-- Go `error` values met in the package: the sentinel `stow.ErrNotFound` and
errors built from a message (`errors.New`, `errors.Errorf`, client errors). -/
inductive Error where
  | ErrNotFound
  | New (msg : String)
  deriving DecidableEq, Repr

/-- Run-time panics the code can raise. -/
inductive Panic where
  | indexOutOfRange (index length : Nat)
  | nilDereference
  deriving DecidableEq, Repr

/-- Result of a Go function returning `(T, error)`, or a panic. -/
inductive Outcome (α : Type) where
  | ok (a : α)
  | err (e : Error)
  | panic (p : Panic)
  deriving DecidableEq, Repr

/-! ## Go maps -/

/-- A Go `map[string]V`, listed in iteration order. -/
abbrev GoMap (V : Type) := List (String × V)

/-- Lookup `m[k]` (with the `ok` flag as `Option`). -/
def GoMap.get {V : Type} : GoMap V → String → Option V
  | [], _ => none
  | (k', v) :: rest, k => if k' = k then some v else GoMap.get rest k

/-- Assignment `m[k] = v`. -/
def GoMap.set {V : Type} : GoMap V → String → V → GoMap V
  | [], k, v => [(k, v)]
  | (k', v') :: rest, k, v =>
    if k' = k then (k, v) :: rest else (k', v') :: GoMap.set rest k v

/-- The keys of a map, in iteration order. -/
def GoMap.keys {V : Type} (m : GoMap V) : List String := m.map Prod.fst

/-- A dynamically typed Go value (`interface{}`), by dynamic type. -/
inductive Value where
  | nil
  | bool (b : Bool)
  | int (n : Int)
  | str (s : String)
  | bytes (bs : List Nat)
  deriving DecidableEq, Repr

/-- The type assertion `value.(string)` succeeds. -/
def Value.isString : Value → Bool
  | .str _ => true
  | _ => false

/-! ## Metadata codec (`container.go`) -/

/-- Loop of `parseMetadata`: copy every entry. -/
def parseMetadataLoop : List (String × String) → GoMap Value → GoMap Value
  | [], acc => acc
  | (key, value) :: rest, acc => parseMetadataLoop rest (acc.set key (Value.str value))

/-- `parseMetadata`: native string map to loosely typed map; never fails. -/
def parseMetadata (metadataParsed : GoMap String) : Except Error (GoMap Value) :=
  .ok (parseMetadataLoop metadataParsed [])

/-- The message of the error `prepMetadata` returns for `key`. -/
def prepMetadataError (key : String) : Error :=
  Error.New ("value of key '" ++ key ++ "' in metadata must be of type string")

/-- Loop of `prepMetadata`: stop at the first value that is not a string. -/
def prepMetadataLoop : List (String × Value) → GoMap String → Except Error (GoMap String)
  | [], acc => .ok acc
  | (key, value) :: rest, acc =>
    match value with
    | .str s => prepMetadataLoop rest (acc.set key s)
    | _ => .error (prepMetadataError key)

/-- `prepMetadata`: loosely typed map to native string map. -/
def prepMetadata (metadataParsed : GoMap Value) : Except Error (GoMap String) :=
  prepMetadataLoop metadataParsed []

/-! ## URLs and `strings.SplitN` -/

/-- The fields of `net/url.URL` the package reads. -/
structure URL where
  Scheme : String
  Path : String
  deriving DecidableEq, Repr

/-- Cut a character list at the first separator: the part before it and the
part after it, or `none` when the separator does not occur
(`strings.Index` with a one-byte separator). -/
def cut (sep : Char) : List Char → Option (List Char × List Char)
  | [] => none
  | c :: cs =>
    if c = sep then some ([], cs)
    else match cut sep cs with
      | none => none
      | some (before, after) => some (c :: before, after)

/-- `strings.SplitN` on character lists, one-character separator, `n ≥ 0`:
at most `n` pieces, the last one being the unsplit remainder. -/
def splitNChars (sep : Char) : List Char → Nat → List (List Char)
  | _, 0 => []
  | s, 1 => [s]
  | s, n + 2 =>
    match cut sep s with
    | none => [s]
    | some (before, after) => before :: splitNChars sep after (n + 1)

/-- `strings.SplitN(s, sep, n)` for a one-character separator. -/
def SplitN (s : String) (sep : Char) (n : Nat) : List String :=
  (splitNChars sep s.data n).map String.mk

/-! ## The storage client -/

/-- The fields of `storage.BucketAttrs` the package reads. -/
structure BucketAttrs where
  Name : String
  deriving DecidableEq, Repr

/-- The fields of `storage.ObjectAttrs` the package reads
(`MD5` as a list of bytes, `Updated` as a time stamp). -/
structure ObjectAttrs where
  Name : String
  Size : Int
  MD5 : List Nat
  Updated : Int
  MediaLink : String
  Metadata : GoMap String
  deriving DecidableEq, Repr

/-- A `storage.ObjectHandle`: bucket name and object name. -/
structure ObjectHandle where
  bucket : String
  object : String
  deriving DecidableEq, Repr

/-- The calls the package makes on the storage client. -/
inductive Call where
  | bucketAttrs (bucket : String)
  | objectAttrs (bucket object : String)
  | bucketsNextPage (projectID pfx : String) (pageSize : Int) (pageToken : String)
  | objectsNextPage (bucket : String) (query : Option String) (pageSize : Int)
      (pageToken : String)
  | copy (bucket object : String) (content : List Nat)
  | close (bucket object : String)
  deriving DecidableEq, Repr

/-- The storage client (`*storage.Client`) as an oracle.  Every answer may
depend on the calls made before it.  `bucketsPage` and `objectsPage` give the
page of attributes a pager fetches from the bucket or object iterator,
together with the token of the next page; `copy` gives what `io.Copy` into the
object writer returns. -/
structure Client where
  bucketAttrs : List Call → String → Except Error BucketAttrs
  objectAttrs : List Call → String → String → Except Error ObjectAttrs
  bucketsPage : List Call → String → String → Int → String →
    Except Error (List BucketAttrs × String)
  objectsPage : List Call → String → Option String → Int → String →
    Except Error (List ObjectAttrs × String)
  copy : List Call → String → String → List Nat → Int × Option Error
  close : List Call → String → String → Option Error

/-- What a caller hands to `pager.NextPage`: a pointer to a slice of the
iterator's item type, or any other value, given by the name of its Go type as
`%T` prints it. -/
inductive SliceArg (α : Type) where
  | pointer (slice : List α)
  | other (goType : String)

/-- The error a pager built with a page size that is not positive returns
from `NextPage`. -/
def pageSizeError : Error := Error.New "iterator: page size must be positive"

/-- The error `NextPage` returns for an argument that is not a pointer to a
slice of the iterator's item type. -/
def sliceTypeError (wantSliceType goType : String) : Error :=
  Error.New ("slicep should be of type " ++ wantSliceType ++ ", got " ++ goType)

/-- `iterator.NewPager(iter, pageSize, pageToken)` followed by
`pager.NextPage(slicep)`.  A page size that is not positive and an argument
that is not a pointer to a slice of the iterator's item type are refused with
an error before the backend is asked.  Otherwise the backend is asked (`call`
is logged) and the fetched page is appended to the slice pointed to; the
result is the next token with that slice. -/
def NextPage {α : Type} (pageSize : Int) (wantSliceType : String) (slicep : SliceArg α)
    (call : Call) (fetch : List Call → Except Error (List α × String)) (h : List Call) :
    Except Error (String × List α) × List Call :=
  if pageSize ≤ 0 then (.error pageSizeError, h)
  else
    match slicep with
    | .other goType => (.error (sliceTypeError wantSliceType goType), h)
    | .pointer slice =>
      match fetch h with
      | .error e => (.error e, h ++ [call])
      | .ok (page, nextToken) => (.ok (nextToken, slice ++ page), h ++ [call])

/-! ## `config.go` -/

/-- `Kind`: the name of the location type. -/
def Kind : String := "google"

/-- `ConfigProjectId`. -/
def ConfigProjectId : String := "project_id"

/-- `stow.Config`: `Config(name)` returns a value and a presence flag. -/
abbrev Config := String → String × Bool

/-- `kindfn`: the scheme predicate handed to `stow.Register`. -/
def kindfn (u : URL) : Bool := decide (u.Scheme = Kind)

/-! ## `container.go` -/

/-- `Container`: a bucket name and the shared client. -/
structure Container where
  name : String
  client : Client

/-- `Container.ID`. -/
def Container.ID (c : Container) : String := c.name

/-- `Container.Name`. -/
def Container.Name (c : Container) : String := c.name

/-- `Container.Bucket`: the bucket handle, identified by its name. -/
def Container.Bucket (c : Container) : String := c.name

/-- The `Item` struct, with the fields the package fills in. -/
structure Item where
  name : String
  container : Container
  client : Client
  size : Int
  hash : String
  lastModified : Int
  url : URL
  metadata : GoMap Value
  object : ObjectHandle

/-- Two lower-case hexadecimal digits of a byte. -/
def hexByte (b : Nat) : List Char :=
  [Nat.digitChar (b / 16 % 16), Nat.digitChar (b % 16)]

/-- `fmt.Sprintf("%x", bytes)`. -/
def sprintfHex (bytes : List Nat) : String :=
  String.mk (bytes.map hexByte).flatten

/-- `Container.Item`.  `prepUrl` is the package helper that turns the media
link into a URL; it is not part of the files embedded here and is a
parameter. -/
def Container.Item (prepUrl : String → Except Error URL) (c : Container) (id : String)
    (h : List Call) : Outcome Item × List Call :=
  let obj : ObjectHandle := { bucket := c.name, object := id }
  let h1 := h ++ [Call.objectAttrs c.name id]
  match c.client.objectAttrs h c.name id with
  | .error _ => (.err Error.ErrNotFound, h1)
  | .ok res =>
    match prepUrl res.MediaLink with
    | .error e => (.err e, h1)
    | .ok u =>
      match parseMetadata res.Metadata with
      | .error e => (.err e, h1)
      | .ok mdParsed =>
        (.ok { name := id, container := c, client := c.client, size := res.Size,
               hash := sprintfHex res.MD5, lastModified := res.Updated, url := u,
               metadata := mdParsed, object := obj }, h1)

/-- The `for _, o := range objs` loop of `Container.Items`.  The error of
`o.Attrs` is overwritten unread, so after a failed fetch the nil attributes
are dereferenced. -/
def Container.ItemsLoop (prepUrl : String → Except Error URL) (c : Container) :
    List ObjectHandle → List Google.Item → List Call →
    Outcome (List Google.Item) × List Call
  | [], containerItems, h => (.ok containerItems, h)
  | o :: rest, containerItems, h =>
    let h1 := h ++ [Call.objectAttrs o.bucket o.object]
    match c.client.objectAttrs h o.bucket o.object with
    | .error _ => (.panic Panic.nilDereference, h1)
    | .ok oAttrs =>
      match prepUrl oAttrs.MediaLink with
      | .error e => (.err e, h1)
      | .ok u =>
        match parseMetadata oAttrs.Metadata with
        | .error e => (.err e, h1)
        | .ok mdParsed =>
          Container.ItemsLoop prepUrl c rest
            (containerItems ++
              [{ name := oAttrs.Name, container := c, client := c.client,
                 size := oAttrs.Size, hash := sprintfHex oAttrs.MD5,
                 lastModified := oAttrs.Updated, url := u, metadata := mdParsed,
                 object := o }]) h1

/-- `Container.Items`.  The pager over the object iterator, whose items are
`*storage.ObjectAttrs`, is handed `objs`, a `[]*storage.ObjectHandle`, itself
and not a pointer to it; `objs` is the empty slice before and after the
call. -/
def Container.Items (prepUrl : String → Except Error URL) (c : Container)
    (pfx cursor : String) (count : Int) (h : List Call) :
    Outcome (List Google.Item × String) × List Call :=
  let q : Option String := if pfx.length > 0 then some pfx else none
  let objs : List ObjectHandle := []
  match NextPage count "*[]*storage.ObjectAttrs" (SliceArg.other "[]*storage.ObjectHandle")
      (Call.objectsNextPage c.name q count cursor)
      (fun h0 => c.client.objectsPage h0 c.name q count cursor) h with
  | (.error e, h1) => (.err e, h1)
  | (.ok (nextToken, _), h1) =>
    match Container.ItemsLoop prepUrl c objs [] h1 with
    | (.ok containerItems, h2) => (.ok (containerItems, nextToken), h2)
    | (.err e, h2) => (.err e, h2)
    | (.panic p, h2) => (.panic p, h2)

/-- `Container.Put`.  The parameter `size` is overwritten by the count
`io.Copy` returns; `metadata` is not read. -/
def Container.Put (prepUrl : String → Except Error URL) (c : Container) (name : String)
    (r : List Nat) (_size : Int) (_metadata : GoMap Value) (h : List Call) :
    Outcome Google.Item × List Call :=
  let obj : ObjectHandle := { bucket := c.name, object := name }
  let h1 := h ++ [Call.copy c.name name r]
  match c.client.copy h c.name name r with
  | (_, some e) => (.err e, h1)
  | (size, none) =>
    let h2 := h1 ++ [Call.close c.name name]
    match c.client.close h1 c.name name with
    | some e => (.err e, h2)
    | none =>
      let h3 := h2 ++ [Call.objectAttrs c.name name]
      match c.client.objectAttrs h2 c.name name with
      | .error e => (.err e, h3)
      | .ok res =>
        match prepUrl res.MediaLink with
        | .error e => (.err e, h3)
        | .ok u =>
          match parseMetadata res.Metadata with
          | .error e => (.err e, h3)
          | .ok mdParsed =>
            (.ok { name := name, container := c, client := c.client, size := size,
                   hash := sprintfHex res.MD5, lastModified := res.Updated, url := u,
                   metadata := mdParsed, object := obj }, h3)

/-- Follow `Items("", cursor, count)` from `cursor`, feeding back every
returned cursor until it is empty, and collect the items of all pages.
`none` when `fuel` calls were not enough. -/
def traverse (prepUrl : String → Except Error URL) (c : Container) (count : Int) :
    Nat → String → List Item → List Call → Option (Outcome (List Item) × List Call)
  | 0, _, _, _ => none
  | fuel + 1, cursor, acc, h =>
    match Container.Items prepUrl c "" cursor count h with
    | (.ok (page, nextCursor), h1) =>
      if nextCursor = "" then some (.ok (acc ++ page), h1)
      else traverse prepUrl c count fuel nextCursor (acc ++ page) h1
    | (.err e, h1) => some (.err e, h1)
    | (.panic p, h1) => some (.panic p, h1)

/-! ## `location.go` -/

/-- `Location`: the configuration and the client. -/
structure Location where
  config : Config
  client : Client

/-- The slice `Location.Containers` builds from the fetched attributes:
`make([]stow.Container, len(bucketAttrs))` holds `len(bucketAttrs)` nil
entries, and the loop appends one container per bucket after them. -/
def Location.containersOf (l : Location) (bucketAttrs : List BucketAttrs) :
    List (Option Container) :=
  bucketAttrs.foldl
    (fun containers bucketAttr =>
      containers ++ [some { name := bucketAttr.Name, client := l.client }])
    (List.replicate bucketAttrs.length none)

/-- `Location.Containers`.  The pager over the bucket iterator is handed
`bucketAttrs`, a `[]*storage.BucketAttrs`, itself and not a pointer to it;
`bucketAttrs` is the empty slice before and after the call. -/
def Location.Containers (l : Location) (pfx cursor : String) (count : Int)
    (h : List Call) : Outcome (List (Option Container) × String) × List Call :=
  let projId := (l.config ConfigProjectId).1
  let iterPrefix := if pfx.length > 0 then pfx else ""
  let bucketAttrs : List BucketAttrs := []
  match NextPage count "*[]*storage.BucketAttrs" (SliceArg.other "[]*storage.BucketAttrs")
      (Call.bucketsNextPage projId iterPrefix count cursor)
      (fun h0 => l.client.bucketsPage h0 projId iterPrefix count cursor) h with
  | (.error e, h1) => (.err e, h1)
  | (.ok (nextToken, _), h1) => (.ok (l.containersOf bucketAttrs, nextToken), h1)

/-- `Location.Container`. -/
def Location.Container (l : Location) (id : String) (h : List Call) :
    Outcome Container × List Call :=
  let h1 := h ++ [Call.bucketAttrs id]
  match l.client.bucketAttrs h id with
  | .error _ => (.err Error.ErrNotFound, h1)
  | .ok _ => (.ok { name := id, client := l.client }, h1)

/-- `Location.ItemByURL`.  `pieces[5]` and `pieces[7]` are indexed without a
length check; an index past the end panics. -/
def Location.ItemByURL (prepUrl : String → Except Error URL) (l : Location) (url : URL)
    (h : List Call) : Outcome Item × List Call :=
  if url.Scheme ≠ Kind then
    (.err (Error.New "not valid google storage URL"), h)
  else
    let pieces := SplitN url.Path '/' 8
    match pieces.get? 5 with
    | none => (.panic (Panic.indexOutOfRange 5 pieces.length), h)
    | some containerID =>
      match l.Container containerID h with
      | (.err _, h1) => (.err Error.ErrNotFound, h1)
      | (.panic p, h1) => (.panic p, h1)
      | (.ok c, h1) =>
        match pieces.get? 7 with
        | none => (.panic (Panic.indexOutOfRange 7 pieces.length), h1)
        | some itemID =>
          match c.Item prepUrl itemID h1 with
          | (.err _, h2) => (.err Error.ErrNotFound, h2)
          | (.panic p, h2) => (.panic p, h2)
          | (.ok i, h2) => (.ok i, h2)

/-! ## Sample clients used to evaluate the code -/

/-- A sample `prepUrl`: keeps the link as the path of a `google` URL. -/
def samplePrepUrl (str : String) : Except Error URL :=
  .ok { Scheme := "google", Path := str }

/-- Attributes of the object `f1`: five bytes, metadata `k = v`. -/
def sampleAttrs : ObjectAttrs :=
  { Name := "f1", Size := 5, MD5 := [93, 65, 64, 42], Updated := 1,
    MediaLink := "/download/storage/v1/b/b1/o/f1", Metadata := [("k", "v")] }

/-- A backend with one bucket `b1` holding one object `f1`.  Listings return
the whole content in one page; a write stores every byte offered. -/
def sampleClient : Client where
  bucketAttrs _ bucket :=
    if bucket = "b1" then .ok { Name := "b1" } else .error (Error.New "no such bucket")
  objectAttrs _ bucket object :=
    if bucket = "b1" ∧ object = "f1" then .ok sampleAttrs
    else .error (Error.New "no such object")
  bucketsPage _ _ _ _ pageToken :=
    if pageToken = "" then .ok ([{ Name := "b1" }], "")
    else .error (Error.New "invalid page token")
  objectsPage _ bucket _ _ pageToken :=
    if bucket = "b1" ∧ pageToken = "" then .ok ([sampleAttrs], "")
    else .error (Error.New "invalid page token")
  copy _ _ _ content := (content.length, none)
  close _ _ _ := none

/-- The sample backend, except that the attributes fetched for an object
report seven stored bytes whatever was written. -/
def resizingClient : Client :=
  { sampleClient with
    objectAttrs := fun _ _ _ => .ok { sampleAttrs with Size := 7 } }

/-- A sample `prepUrl` that refuses the link `:`, which has no scheme, and
keeps any other link as the path of a `google` URL. -/
def strictPrepUrl (str : String) : Except Error URL :=
  if str = ":" then .error (Error.New "missing protocol scheme")
  else .ok { Scheme := "google", Path := str }

/-- The sample backend, except that the media link it reports for an object
is `:`. -/
def badLinkClient : Client :=
  { sampleClient with
    objectAttrs := fun _ bucket object =>
      if bucket = "b1" ∧ object = "f1" then .ok { sampleAttrs with MediaLink := ":" }
      else .error (Error.New "no such object") }

/-- A location on the backend with the media link `:`. -/
def badLinkLocation : Location :=
  { config := fun name => if name = ConfigProjectId then ("p1", true) else ("", false),
    client := badLinkClient }

/-- A location on the sample backend. -/
def sampleLocation : Location :=
  { config := fun name => if name = ConfigProjectId then ("p1", true) else ("", false),
    client := sampleClient }

/-- The bucket `b1` of the sample backend. -/
def sampleContainer : Container := { name := "b1", client := sampleClient }

/-- The bucket `b1` of the resizing backend. -/
def resizingContainer : Container := { name := "b1", client := resizingClient }

/-- The bytes of `hello`. -/
def helloBytes : List Nat := [104, 101, 108, 108, 111]

/-! ## Lemmas on Go maps -/

theorem GoMap.set_of_not_mem {V : Type} (m : GoMap V) (k : String) (v : V)
    (hk : k ∉ m.keys) : m.set k v = m ++ [(k, v)] := by
  induction m with
  | nil => rfl
  | cons p rest ih =>
    obtain ⟨k', v'⟩ := p
    simp only [GoMap.keys, List.map_cons, List.mem_cons, not_or] at hk
    have hne : ¬ k' = k := fun e => hk.1 e.symm
    simp only [GoMap.set, if_neg hne, List.cons_append]
    rw [ih hk.2]

theorem GoMap.keys_append {V : Type} (m₁ m₂ : GoMap V) :
    GoMap.keys (m₁ ++ m₂) = m₁.keys ++ m₂.keys := by
  simp [GoMap.keys]

theorem prepMetadataLoop_strings (E : GoMap String) :
    ∀ acc : GoMap String, (acc.keys ++ E.keys).Nodup →
      prepMetadataLoop (E.map fun p => (p.1, Value.str p.2)) acc = .ok (acc ++ E) := by
  induction E with
  | nil => intro acc _; simp [prepMetadataLoop]
  | cons p rest ih =>
    intro acc hnd
    obtain ⟨k, s⟩ := p
    have hk : k ∉ acc.keys := by
      intro hmem
      have := (List.nodup_append.mp hnd).2.2
      exact this hmem (by simp [GoMap.keys])
    have hnd' : ((acc ++ [(k, s)]).keys ++ GoMap.keys rest).Nodup := by
      simpa [GoMap.keys, List.append_assoc] using hnd
    simp only [List.map_cons, prepMetadataLoop]
    rw [GoMap.set_of_not_mem acc k s hk, ih _ hnd']
    simp

theorem parseMetadataLoop_append (E : GoMap String) :
    ∀ acc : GoMap Value, (acc.keys ++ E.keys).Nodup →
      parseMetadataLoop E acc = acc ++ E.map fun p => (p.1, Value.str p.2) := by
  induction E with
  | nil => intro acc _; simp [parseMetadataLoop]
  | cons p rest ih =>
    intro acc hnd
    obtain ⟨k, s⟩ := p
    have hk : k ∉ acc.keys := by
      intro hmem
      have := (List.nodup_append.mp hnd).2.2
      exact this hmem (by simp [GoMap.keys])
    have hnd' : ((acc ++ [(k, Value.str s)]).keys ++ GoMap.keys rest).Nodup := by
      simpa [GoMap.keys, List.append_assoc] using hnd
    simp only [List.map_cons, parseMetadataLoop]
    rw [GoMap.set_of_not_mem acc k (Value.str s) hk, ih _ hnd']
    simp

/-- A map all of whose values are strings is the image of a string map. -/
theorem exists_string_map (M : GoMap Value) (hs : ∀ p ∈ M, p.2.isString = true) :
    ∃ E : GoMap String, (E.map fun p => (p.1, Value.str p.2)) = M := by
  induction M with
  | nil => exact ⟨[], rfl⟩
  | cons p rest ih =>
    obtain ⟨E, hE⟩ := ih (fun q hq => hs q (List.mem_cons_of_mem _ hq))
    obtain ⟨k, v⟩ := p
    have hv := hs (k, v) (List.mem_cons_self _ _)
    cases v with
    | str s => exact ⟨(k, s) :: E, by simp [hE]⟩
    | nil => simp [Value.isString] at hv
    | bool b => simp [Value.isString] at hv
    | int n => simp [Value.isString] at hv
    | bytes bs => simp [Value.isString] at hv

theorem prepMetadataLoop_fails (M : GoMap Value) :
    ∀ acc : GoMap String, (∃ p ∈ M, p.2.isString = false) →
      ∃ k v, (k, v) ∈ M ∧ v.isString = false ∧
        prepMetadataLoop M acc = .error (prepMetadataError k) := by
  induction M with
  | nil => intro _ h; obtain ⟨p, hp, _⟩ := h; cases hp
  | cons p rest ih =>
    intro acc h
    obtain ⟨k, v⟩ := p
    cases v with
    | str s =>
      have h' : ∃ q ∈ rest, q.2.isString = false := by
        obtain ⟨q, hq, hqs⟩ := h
        rcases List.mem_cons.mp hq with rfl | hq'
        · simp [Value.isString] at hqs
        · exact ⟨q, hq', hqs⟩
      obtain ⟨k', v', hmem, hv', hr⟩ := ih (acc.set k s) h'
      exact ⟨k', v', List.mem_cons_of_mem _ hmem, hv', by simpa [prepMetadataLoop] using hr⟩
    | nil => exact ⟨k, Value.nil, List.mem_cons_self _ _, rfl, rfl⟩
    | bool b => exact ⟨k, Value.bool b, List.mem_cons_self _ _, rfl, rfl⟩
    | int n => exact ⟨k, Value.int n, List.mem_cons_self _ _, rfl, rfl⟩
    | bytes bs => exact ⟨k, Value.bytes bs, List.mem_cons_self _ _, rfl, rfl⟩

/-! ## Metadata codec -/

/-- C1: for every metadata map `M` with distinct keys all of whose values are
strings, `prepMetadata M` succeeds with a string map `E`, `parseMetadata E`
succeeds, and the result is `M` again: the same entries, hence the same keys
with the same value under every key. -/
theorem metadata_round_trip (M : GoMap Value) (hk : M.keys.Nodup)
    (hs : ∀ p ∈ M, p.2.isString = true) :
    ∃ E R, prepMetadata M = .ok E ∧ parseMetadata E = .ok R ∧ R = M ∧
      ∀ k, R.get k = M.get k := by
  obtain ⟨E, hE⟩ := exists_string_map M hs
  have hkE : E.keys = M.keys := by
    rw [← hE]; simp [GoMap.keys, List.map_map, Function.comp_def]
  have hkE' : E.keys.Nodup := by rw [hkE]; exact hk
  have hnd : (GoMap.keys ([] : GoMap String) ++ E.keys).Nodup := by
    simpa [GoMap.keys] using hkE'
  have hnd' : (GoMap.keys ([] : GoMap Value) ++ E.keys).Nodup := by
    simpa [GoMap.keys] using hkE'
  refine ⟨E, M, ?_, ?_, rfl, fun _ => rfl⟩
  · have := prepMetadataLoop_strings E [] hnd
    rw [hE] at this
    simpa [prepMetadata] using this
  · have := parseMetadataLoop_append E [] hnd'
    rw [hE] at this
    simp [parseMetadata, this]

/-- Witness of C1 on the map `{"k": "v", "a": ""}`. -/
theorem metadata_round_trip_witness :
    ∃ E R, prepMetadata [("k", Value.str "v"), ("a", Value.str "")] = .ok E ∧
      parseMetadata E = .ok R ∧ R = [("k", Value.str "v"), ("a", Value.str "")] ∧
      ∀ k, R.get k = GoMap.get [("k", Value.str "v"), ("a", Value.str "")] k :=
  metadata_round_trip [("k", Value.str "v"), ("a", Value.str "")] (by decide) (by decide)

/-- C2: for every metadata map holding at least one value that is not a
string, `prepMetadata` returns an error and no map, and the key the error
message names is a key of the map whose value is not a string. -/
theorem encode_validation (M : GoMap Value) (h : ∃ p ∈ M, p.2.isString = false) :
    ∃ k v, (k, v) ∈ M ∧ v.isString = false ∧
      prepMetadata M = .error (prepMetadataError k) :=
  prepMetadataLoop_fails M [] h

/-- Witness of C2 on the map `{"a": "x", "k": 1}`. -/
theorem encode_validation_witness :
    ∃ k v, (k, v) ∈ [("a", Value.str "x"), ("k", Value.int 1)] ∧ v.isString = false ∧
      prepMetadata [("a", Value.str "x"), ("k", Value.int 1)] =
        .error (prepMetadataError k) :=
  encode_validation [("a", Value.str "x"), ("k", Value.int 1)]
    ⟨("k", Value.int 1), by decide, rfl⟩

/-! ## `Container.Put` -/

/-- C3 (code evaluated at the failing input): on the resizing backend `Put` of
the five bytes of `hello` with declared size 5 succeeds, the attributes
fetched after the write report 7 stored bytes, and the returned item has
size 5, the count `io.Copy` returned, not the 7 the backend reports. -/
theorem put_size_not_backend_size :
    ∃ item h' res,
      resizingContainer.Put samplePrepUrl "x" helloBytes 5 [] [] = (.ok item, h') ∧
      resizingContainer.client.objectAttrs
        [Call.copy "b1" "x" helloBytes, Call.close "b1" "x"] "b1" "x" = .ok res ∧
      res.Size = 7 ∧ item.size = 5 ∧ item.size ≠ res.Size :=
  ⟨_, _, _, rfl, rfl, rfl, rfl, by decide⟩

/-- Where the size of the item `Container.Put` returns comes from: the count
`io.Copy` returned, for every client. -/
theorem put_size_is_copied_count (prepUrl : String → Except Error URL) (c : Container)
    (name : String) (r : List Nat) (size : Int) (metadata : GoMap Value) (h h' : List Call)
    (item : Item) (hput : c.Put prepUrl name r size metadata h = (.ok item, h')) :
    item.size = (c.client.copy h c.name name r).1 := by
  unfold Container.Put at hput
  simp only [parseMetadata] at hput
  split at hput
  · cases hput
  · rename_i n hcopy
    split at hput
    · cases hput
    · split at hput
      · cases hput
      · split at hput
        · cases hput
        · simp only [Prod.mk.injEq, Outcome.ok.injEq] at hput
          rw [← hput.1, hcopy]

/-- `Container.Put` does not depend on its `metadata` argument. -/
theorem put_ignores_metadata (prepUrl : String → Except Error URL) (c : Container)
    (name : String) (r : List Nat) (size : Int) (m₁ m₂ : GoMap Value) (h : List Call) :
    c.Put prepUrl name r size m₁ h = c.Put prepUrl name r size m₂ h := rfl

/-- C4 (code evaluated at the failing input): on the sample backend `Put` with
the metadata `{"k": 1}` returns an item, although `prepMetadata` rejects that
map; the client is asked to copy, close and fetch attributes only. -/
theorem put_accepts_non_string_metadata :
    prepMetadata [("k", Value.int 1)] = .error (prepMetadataError "k") ∧
    ∃ item,
      sampleContainer.Put samplePrepUrl "f1" helloBytes 5 [("k", Value.int 1)] [] =
        (.ok item,
          [Call.copy "b1" "f1" helloBytes, Call.close "b1" "f1",
           Call.objectAttrs "b1" "f1"]) ∧
      item.name = "f1" ∧ item.metadata = [("k", Value.str "v")] :=
  ⟨rfl, _, rfl, rfl, rfl⟩

/-! ## Direct lookups -/

/-- C9: if the client's attribute fetch fails, with any error,
`Location.Container` and `Container.Item` return `stow.ErrNotFound` and no
entity; if the bucket attribute fetch succeeds, `Location.Container` returns
a container whose `ID` and `Name` are the requested id. -/
theorem lookup_not_found_normalization (prepUrl : String → Except Error URL)
    (l : Location) (c : Container) (id : String) (h : List Call) :
    (∀ e, l.client.bucketAttrs h id = .error e →
      l.Container id h = (.err Error.ErrNotFound, h ++ [Call.bucketAttrs id])) ∧
    (∀ e, c.client.objectAttrs h c.name id = .error e →
      c.Item prepUrl id h = (.err Error.ErrNotFound, h ++ [Call.objectAttrs c.name id])) ∧
    (∀ a, l.client.bucketAttrs h id = .ok a →
      ∃ c', l.Container id h = (.ok c', h ++ [Call.bucketAttrs id]) ∧
        c'.ID = id ∧ c'.Name = id) := by
  refine ⟨?_, ?_, ?_⟩
  · intro e he
    simp [Location.Container, he]
  · intro e he
    simp [Container.Item, he]
  · intro a ha
    exact ⟨{ name := id, client := l.client }, by simp [Location.Container, ha], rfl, rfl⟩

/-- Witness of C9 on the sample backend: the bucket `nope` and the object
`nope` are missing, the bucket `b1` exists. -/
theorem lookup_not_found_normalization_witness :
    sampleLocation.Container "nope" [] = (.err Error.ErrNotFound, [Call.bucketAttrs "nope"]) ∧
    sampleContainer.Item samplePrepUrl "nope" [] =
      (.err Error.ErrNotFound, [Call.objectAttrs "b1" "nope"]) ∧
    ∃ c', sampleLocation.Container "b1" [] = (.ok c', [Call.bucketAttrs "b1"]) ∧
      c'.ID = "b1" ∧ c'.Name = "b1" :=
  ⟨(lookup_not_found_normalization samplePrepUrl sampleLocation sampleContainer "nope" []).1
      (Error.New "no such bucket") rfl,
   (lookup_not_found_normalization samplePrepUrl sampleLocation sampleContainer "nope"
      []).2.1 (Error.New "no such object") rfl,
   (lookup_not_found_normalization samplePrepUrl sampleLocation sampleContainer "b1" []).2.2
      { Name := "b1" } rfl⟩

/-! ## Scheme check -/

/-- C10: for every URL whose scheme is not `google`, `Location.ItemByURL`
fails with the error `not valid google storage URL`, returns no item and makes
no call on the client (the history is unchanged); and `kindfn` is true exactly
for the URLs whose scheme is `google`. -/
theorem scheme_mismatch (prepUrl : String → Except Error URL) (l : Location) (url : URL)
    (h : List Call) :
    (url.Scheme ≠ "google" →
      l.ItemByURL prepUrl url h = (.err (Error.New "not valid google storage URL"), h)) ∧
    (kindfn url = true ↔ url.Scheme = "google") := by
  constructor
  · intro hs
    have hs' : url.Scheme ≠ Kind := hs
    simp [Location.ItemByURL, hs']
  · simp [kindfn, Kind]

/-- Witness of C10 on the URL `s3://download/x`. -/
theorem scheme_mismatch_witness :
    sampleLocation.ItemByURL samplePrepUrl { Scheme := "s3", Path := "/download/x" } [] =
      (.err (Error.New "not valid google storage URL"), []) ∧
    kindfn { Scheme := "s3", Path := "/download/x" } = false :=
  ⟨(scheme_mismatch samplePrepUrl sampleLocation { Scheme := "s3", Path := "/download/x" }
      []).1 (by decide), by decide⟩

/-! ## URL resolution -/

theorem cut_append_of_not_mem (sep : Char) (a rest : List Char) (h : sep ∉ a) :
    cut sep (a ++ sep :: rest) = some (a, rest) := by
  induction a with
  | nil => simp [cut]
  | cons x xs ih =>
    simp only [List.mem_cons, not_or] at h
    have hx : ¬ x = sep := fun e => h.1 e.symm
    simp [cut, hx, ih h.2]

theorem splitNChars_cons (sep : Char) (a rest : List Char) (n : Nat) (h : sep ∉ a) :
    splitNChars sep (a ++ sep :: rest) (n + 2) = a :: splitNChars sep rest (n + 1) := by
  simp [splitNChars, cut_append_of_not_mem sep a rest h]

/-- The pieces of a media-link path: the container id is piece 5 and the item
id, slashes included, is piece 7. -/
theorem SplitN_media_link (c i : String) (hc : '/' ∉ c.data) :
    SplitN ("/download/storage/v1/b/" ++ c ++ "/o/" ++ i) '/' 8 =
      ["", "download", "storage", "v1", "b", c, "o", i] := by
  have hd : ("/download/storage/v1/b/" ++ c ++ "/o/" ++ i).data =
      [] ++ '/' :: (['d', 'o', 'w', 'n', 'l', 'o', 'a', 'd'] ++ '/' ::
        (['s', 't', 'o', 'r', 'a', 'g', 'e'] ++ '/' :: (['v', '1'] ++ '/' ::
          (['b'] ++ '/' :: (c.data ++ '/' :: (['o'] ++ '/' :: i.data)))))) := by
    simp [String.data_append]
  rw [SplitN, hd, splitNChars_cons _ _ _ 6 (by decide), splitNChars_cons _ _ _ 5 (by decide),
    splitNChars_cons _ _ _ 4 (by decide), splitNChars_cons _ _ _ 3 (by decide),
    splitNChars_cons _ _ _ 2 (by decide), splitNChars_cons _ _ _ 1 hc,
    splitNChars_cons _ _ _ 0 (by decide)]
  simp only [splitNChars, List.map_cons, List.map_nil]

/-- Counterexample to C5: on the backend whose object `f1` of the bucket `b1`
has the media link `:`, both the bucket and the object exist (their attribute
fetches succeed), `prepUrl` refuses the link, and `Location.ItemByURL` on the
URL with scheme `google` and path `/download/storage/v1/b/b1/o/f1` returns
`stow.ErrNotFound` and no item. -/
theorem url_resolution_refused_link :
    badLinkClient.bucketAttrs [] "b1" = .ok { Name := "b1" } ∧
    badLinkClient.objectAttrs [Call.bucketAttrs "b1"] "b1" "f1" =
      .ok { sampleAttrs with MediaLink := ":" } ∧
    badLinkLocation.ItemByURL strictPrepUrl
        { Scheme := "google", Path := "/download/storage/v1/b/" ++ "b1" ++ "/o/" ++ "f1" } [] =
      (.err Error.ErrNotFound, [Call.bucketAttrs "b1", Call.objectAttrs "b1" "f1"]) := by
  refine ⟨rfl, rfl, ?_⟩
  have hk : ¬ ("google" ≠ Kind) := by decide
  have hs : SplitN ("/download/storage/v1/b/" ++ "b1" ++ "/o/" ++ "f1") '/' 8 =
      ["", "download", "storage", "v1", "b", "b1", "o", "f1"] := by decide
  have hb : badLinkLocation.client.bucketAttrs [] "b1" = .ok { Name := "b1" } := rfl
  unfold Location.ItemByURL
  rw [if_neg hk]
  simp only []
  rw [hs]
  simp only [List.get?, Location.Container, hb, Container.Item, List.nil_append,
    List.singleton_append]
  rfl

/-- C5 (amended): for every container id `c` without `/` and every item id
`i`, on a client whose bucket attribute fetch for `c` and object attribute
fetch for `(c, i)` succeed and whose media link `prepUrl` accepts,
`Location.ItemByURL`
on the URL with scheme `google` and path `/download/storage/v1/b/c/o/i`
asks the client for the bucket `c` and then for the object `i` of `c`, and
returns an item whose name is `i` and whose container has ID `c`. -/
theorem url_resolution (prepUrl : String → Except Error URL) (l : Location)
    (c i : String) (h : List Call) (ba : BucketAttrs) (res : ObjectAttrs) (u : URL)
    (hc : '/' ∉ c.data)
    (hb : l.client.bucketAttrs h c = .ok ba)
    (ho : l.client.objectAttrs (h ++ [Call.bucketAttrs c]) c i = .ok res)
    (hu : prepUrl res.MediaLink = .ok u) :
    ∃ item,
      l.ItemByURL prepUrl
          { Scheme := "google", Path := "/download/storage/v1/b/" ++ c ++ "/o/" ++ i } h =
        (.ok item, h ++ [Call.bucketAttrs c, Call.objectAttrs c i]) ∧
      item.name = i ∧ item.container.ID = c := by
  refine ⟨{ name := i, container := { name := c, client := l.client }, client := l.client,
            size := res.Size, hash := sprintfHex res.MD5, lastModified := res.Updated,
            url := u, metadata := parseMetadataLoop res.Metadata [],
            object := { bucket := c, object := i } }, ?_, rfl, rfl⟩
  have hk : ¬ ("google" ≠ Kind) := by decide
  unfold Location.ItemByURL
  rw [if_neg hk]
  simp only []
  rw [SplitN_media_link c i hc]
  simp only [List.get?, Location.Container, hb, Container.Item, ho, hu, parseMetadata,
    List.append_assoc, List.singleton_append]

/-- Witness of C5 (amended) on the sample backend, for the bucket `b1` and the object
`f1`. -/
theorem url_resolution_witness :
    ∃ item,
      sampleLocation.ItemByURL samplePrepUrl
          { Scheme := "google", Path := "/download/storage/v1/b/" ++ "b1" ++ "/o/" ++ "f1" }
          [] =
        (.ok item, [] ++ [Call.bucketAttrs "b1", Call.objectAttrs "b1" "f1"]) ∧
      item.name = "f1" ∧ item.container.ID = "b1" :=
  url_resolution samplePrepUrl sampleLocation "b1" "f1" [] { Name := "b1" } sampleAttrs
    { Scheme := "google", Path := "/download/storage/v1/b/b1/o/f1" } (by decide) rfl rfl rfl

/-- C6 (code evaluated at the failing input): for the URL with scheme `google`
and the empty path, `SplitN` yields one piece and `pieces[5]` panics, whatever
the client; for the path `/download/storage/v1/b/b1`, six pieces long,
the container is looked up and `pieces[7]` panics. -/
theorem item_by_url_short_path_panics (prepUrl : String → Except Error URL) (l : Location)
    (h : List Call) :
    l.ItemByURL prepUrl { Scheme := "google", Path := "" } h =
      (.panic (Panic.indexOutOfRange 5 1), h) ∧
    sampleLocation.ItemByURL prepUrl
        { Scheme := "google", Path := "/download/storage/v1/b/b1" } h =
      (.panic (Panic.indexOutOfRange 7 6), h ++ [Call.bucketAttrs "b1"]) := by
  have hk : ¬ ("google" ≠ Kind) := by decide
  have h0 : SplitN "" '/' 8 = [""] := by decide
  have h1 : SplitN "/download/storage/v1/b/b1" '/' 8 =
      ["", "download", "storage", "v1", "b", "b1"] := by decide
  have hb : sampleLocation.client.bucketAttrs h "b1" = .ok { Name := "b1" } := rfl
  constructor
  · simp only [Location.ItemByURL, hk, if_false, h0, List.get?, List.length]
  · simp only [Location.ItemByURL, hk, if_false, h1, List.get?, List.length,
      Location.Container, hb]

/-! ## Listings -/

/-- C7 (code evaluated at the failing input): `Container.Items` hands the
pager its slice by value, so for every client, prefix, cursor and count the
call returns the pager's error (the type error, or the page size error when
`count ≤ 0`), no item, and the backend is not asked.  The bucket `b1` of the
sample backend holds one object; following `Items("", cursor, 1)` from the
empty cursor ends at the first call with that error and no item. -/
theorem items_traversal_yields_no_item (prepUrl : String → Except Error URL)
    (c : Container) (pfx cursor : String) (count : Int) (h : List Call) :
    c.Items prepUrl pfx cursor count h =
      (.err (if count ≤ 0 then pageSizeError
             else sliceTypeError "*[]*storage.ObjectAttrs" "[]*storage.ObjectHandle"), h) ∧
    sampleClient.objectsPage [] "b1" none 1 "" = .ok ([sampleAttrs], "") ∧
    traverse samplePrepUrl sampleContainer 1 5 "" [] [] =
      some (.err (sliceTypeError "*[]*storage.ObjectAttrs" "[]*storage.ObjectHandle"), []) := by
  refine ⟨?_, rfl, rfl⟩
  unfold Container.Items NextPage
  by_cases hc : count ≤ 0
  · simp [hc]
  · simp [hc]

/-- The slice `containersOf` builds for `k` buckets has `2 * k` entries: `k`
nil entries first, then one container per bucket. -/
theorem containersOf_eq (l : Location) (bucketAttrs : List BucketAttrs) :
    l.containersOf bucketAttrs =
      List.replicate bucketAttrs.length none ++
        bucketAttrs.map fun b => some { name := b.Name, client := l.client } := by
  unfold Location.containersOf
  generalize List.replicate bucketAttrs.length (none : Option Container) = init
  induction bucketAttrs generalizing init with
  | nil => simp
  | cons b rest ih => simp [List.foldl, ih]

/-- C8 (code evaluated at the failing input): `Location.Containers` hands the
pager its slice by value, so for every client, prefix, cursor and count the
call returns the pager's error (the type error, or the page size error when
`count ≤ 0`), no slice, and the backend is not asked.  On the sample backend,
whose first page of buckets holds the one bucket `b1`, `Containers("", "", 10)`
returns that error. -/
theorem containers_never_succeeds (l : Location) (pfx cursor : String) (count : Int)
    (h : List Call) :
    l.Containers pfx cursor count h =
      (.err (if count ≤ 0 then pageSizeError
             else sliceTypeError "*[]*storage.BucketAttrs" "[]*storage.BucketAttrs"), h) ∧
    sampleClient.bucketsPage [] "p1" "" 10 "" = .ok ([{ Name := "b1" }], "") ∧
    sampleLocation.Containers "" "" 10 [] =
      (.err (sliceTypeError "*[]*storage.BucketAttrs" "[]*storage.BucketAttrs"), []) := by
  refine ⟨?_, rfl, rfl⟩
  unfold Location.Containers NextPage
  by_cases hc : count ≤ 0
  · simp [hc]
  · simp [hc]

end Stow.Google
